import Mathlib

/-
  Shallow embedding of the multi-scale Hessian bone-enhancement core of
  ITKBoneEnhancement, together with theorems checking the written
  specification against the code.

  Sources embedded:
  - itkMultiScaleHessianEnhancementImageFilter.hxx
      (GenerateData, generateResponseAtScale, GenerateSigmaArray)
  - itkEigenToMeasureImageFilter.hxx (GenerateData)
  - itkDescoteauxEigenToScalarParameterEstimationImageFilter.h
      (declarations; the .hxx implementation is not in the tree, so the
       estimation pass is modelled from the spec and the in-tree test)

  Machine doubles are modelled as real numbers; images are modelled as
  lists of per-voxel values in scan order; the collaborator filters that
  live outside this repository (Hessian filter, eigen analysis filter)
  appear as abstract function parameters.
-/

set_option maxHeartbeats 1000000

/-- Spec error taxonomy. The C++ code throws itk ExceptionObject values with
messages; the spec groups them into named categories, which this inductive
mirrors. -/
inductive Err where
  | configurationError
  | invalidParameter
  deriving DecidableEq

/-- Embeds the SigmaStepMethod enumeration of
MultiScaleHessianEnhancementImageFilter. -/
inductive SigmaStepMethod where
  | EquispacedSigmaSteps
  | LogarithmicSigmaSteps
  deriving DecidableEq

/-- Embeds the body of the scale-schedule loop of
MultiScaleHessianEnhancementImageFilter::GenerateSigmaArray: element 0 is
assigned SigmaMinimum before the loop, and every later element is computed
from the step size, which is the maximum of 1e-10 and the (equispaced or
logarithmic) spacing. Here mn and mx are the already swapped bounds and
steps is the already coerced number of sigma steps. -/
noncomputable def sigmaAtScaleLevel (mn mx : ℝ) (steps : ℕ)
    (method : SigmaStepMethod) (scaleLevel : ℕ) : ℝ :=
  if scaleLevel = 0 then mn
  else
    match method with
    | SigmaStepMethod.EquispacedSigmaSteps =>
        mn + max (1e-10) ((mx - mn) / ((steps - 1 : ℕ) : ℝ)) * (scaleLevel : ℝ)
    | SigmaStepMethod.LogarithmicSigmaSteps =>
        Real.exp (Real.log mn +
          max (1e-10) ((Real.log mx - Real.log mn) / ((steps - 1 : ℕ) : ℝ)) *
            (scaleLevel : ℝ))

/-- Embeds MultiScaleHessianEnhancementImageFilter::GenerateSigmaArray:
throw if fewer than one step is requested, swap the bounds when minimum
exceeds maximum, coerce the step count to 1 when the bounds coincide, then
populate the array. -/
noncomputable def generateSigmaArray (SigmaMinimum SigmaMaximum : ℝ)
    (NumberOfSigmaSteps : ℕ) (method : SigmaStepMethod) :
    Except Err (List ℝ) :=
  if NumberOfSigmaSteps < 1 then Except.error Err.invalidParameter
  else
    let mn := if SigmaMinimum > SigmaMaximum then SigmaMaximum else SigmaMinimum
    let mx := if SigmaMinimum > SigmaMaximum then SigmaMinimum else SigmaMaximum
    let steps := if mn = mx then 1 else NumberOfSigmaSteps
    Except.ok ((List.range steps).map (sigmaAtScaleLevel mn mx steps method))

/-- Embeds MultiScaleHessianEnhancementImageFilter::generateResponseAtScale:
set the sigma value on the Hessian filter and update the wired
single-scale pipeline Hessian filter, eigen analysis filter, eigen-to-scalar
measure filter. The collaborator filters are abstract parameters. -/
def generateResponseAtScale {α β γ : Type}
    (hessianFilter : ℝ → α → β) (eigenAnalysisFilter : β → γ)
    (eigenToScalarImageFilter : γ → List ℝ)
    (sigma : ℝ) (input : α) : List ℝ :=
  eigenToScalarImageFilter (eigenAnalysisFilter (hessianFilter sigma input))

/-- Embeds MultiScaleHessianEnhancementImageFilter::GenerateData: fail when
the eigen-to-scalar measure filter was never supplied, fail when the sigma
array has fewer than one entry (an empty list), then produce the response at
scale index 0, and fold each later scale into the running image with the
maximum-absolute-value filter, input 1 being the running image and input 2
the new candidate. -/
def multiScaleGenerateData {α β γ : Type}
    (hessianFilter : ℝ → α → β) (eigenAnalysisFilter : β → γ)
    (eigenToScalarImageFilter : Option (γ → List ℝ))
    (maximumAbsoluteValueFilter : List ℝ → List ℝ → List ℝ)
    (sigmaArray : List ℝ) (input : α) : Except Err (List ℝ) :=
  match eigenToScalarImageFilter with
  | none => Except.error Err.configurationError
  | some measure =>
    match sigmaArray with
    | [] => Except.error Err.configurationError
    | sigma0 :: rest =>
      Except.ok (rest.foldl
        (fun running sigma =>
          maximumAbsoluteValueFilter running
            (generateResponseAtScale hessianFilter eigenAnalysisFilter
              measure sigma input))
        (generateResponseAtScale hessianFilter eigenAnalysisFilter
          measure sigma0 input))

/-- Modelled from the spec: the per-voxel functor of the
MaximumAbsoluteValueImageFilter, whose implementation file is not in the
tree. The spec states the rule result = abs(a) >= abs(b) ? a : b, where a is
input 1 (the running image) and b is input 2 (the candidate). -/
noncomputable def maximumAbsoluteValue (a b : ℝ) : ℝ :=
  if |a| ≥ |b| then a else b

/-- Modelled from the spec: the MaximumAbsoluteValueImageFilter applied
voxelwise to two response images. -/
noncomputable def maximumAbsoluteValueImageFilter (input1 input2 : List ℝ) :
    List ℝ :=
  List.zipWith maximumAbsoluteValue input1 input2

/-- Embeds EigenToMeasureImageFilter::GenerateData: for each voxel, transform
its index to a physical point; when no mask is present, or the point is
inside the mask spatial object, apply ProcessPixel to the eigenvalue pixel;
otherwise write zero. The formula variant (ProcessPixel) and the mask
inside-test are abstract parameters; voxels are listed as pairs of an index
and an eigenvalue pixel. -/
def eigenToMeasureGenerateData {I P E : Type}
    (processPixel : E → ℝ) (mask : Option (P → Bool))
    (transformIndexToPhysicalPoint : I → P)
    (voxels : List (I × E)) : List ℝ :=
  voxels.map (fun v =>
    match mask with
    | none => processPixel v.2
    | some isInsideInObjectSpace =>
      if isInsideInObjectSpace (transformIndexToPhysicalPoint v.1) then
        processPixel v.2
      else 0)

/-- Modelled from the spec: CalculateFrobeniusNorm of the Descoteaux
parameter estimation filter (declared in the header, implemented in the
missing .hxx): the square root of the sum of squares of the three
eigenvalues of the pixel. -/
noncomputable def calculateFrobeniusNorm (pixel : ℝ × ℝ × ℝ) : ℝ :=
  Real.sqrt (pixel.1 ^ 2 + pixel.2.1 ^ 2 + pixel.2.2 ^ 2)

/-- Modelled from the spec: the foreground voxel set scanned by the
Descoteaux parameter estimation filter. With no mask every voxel is
foreground; with a mask, exactly the voxels (of the intersection of the two
regions, here the zip of the two lists) whose mask value differs from the
background value. -/
def foregroundPixels {M : Type} [DecidableEq M]
    (ev : List (ℝ × ℝ × ℝ)) (mask : Option (List M)) (backgroundValue : M) :
    List (ℝ × ℝ × ℝ) :=
  match mask with
  | none => ev
  | some maskValues =>
    ((ev.zip maskValues).filter (fun p => p.2 ≠ backgroundValue)).map
      Prod.fst

/-- Modelled from the spec: one run of
DescoteauxEigenToScalarParameterEstimationImageFilter (the .hxx with
BeforeThreadedGenerateData, ThreadedGenerateData and
AfterThreadedGenerateData is not in the tree). The scan accumulates the
maximum Frobenius norm over the foreground voxels starting from zero, and
the outputs are alpha = 0.5, beta = 0.5, and c = the Frobenius norm weight
times that maximum. -/
noncomputable def descoteauxParameterEstimation {M : Type} [DecidableEq M]
    (ev : List (ℝ × ℝ × ℝ)) (mask : Option (List M)) (backgroundValue : M)
    (frobeniusNormWeight : ℝ) : ℝ × ℝ × ℝ :=
  (0.5, 0.5,
    frobeniusNormWeight *
      ((foregroundPixels ev mask backgroundValue).map
        calculateFrobeniusNorm).foldr max 0)

/-- Modelled from the spec: the freshly constructed state of the Descoteaux
parameter estimation filter, before any update has run. The constructor is
in the missing .hxx; the in-tree test pins all three decorated outputs to
0.5 on a fresh filter. -/
noncomputable def descoteauxConstructor : ℝ × ℝ × ℝ := (0.5, 0.5, 0.5)

/-- Embeds the GetAlpha accessor of the estimator header: it reads the
decorated alpha output. -/
noncomputable def getAlpha (params : ℝ × ℝ × ℝ) : ℝ := params.1

/-- Embeds the GetBeta accessor of the estimator header: it reads the
decorated beta output. -/
noncomputable def getBeta (params : ℝ × ℝ × ℝ) : ℝ := params.2.1

/-- Embeds the GetC accessor of the estimator header: it reads the decorated
c output. -/
noncomputable def getC (params : ℝ × ℝ × ℝ) : ℝ := params.2.2

/-- Modelled from the spec: the TensorField Computer stage (the
scale-normalized Hessian filter invoked by generateResponseAtScale; its
implementation lives outside this repository). A positive sigma produces the
new tensor field from the source grid and leaves the source grid unchanged;
a non-positive sigma fails with InvalidParameter. The grid is threaded
through the state so that non-mutation is expressible. -/
noncomputable def tensorFieldComputer {α β : Type}
    (computeTensorField : ℝ → α → β) (sigma : ℝ) (grid : α) :
    Except Err (β × α) :=
  if 0 < sigma then Except.ok (computeTensorField sigma grid, grid)
  else Except.error Err.invalidParameter

/-! ### Helper lemmas -/

/-- Indexing a zipWith at a position where both inputs are defined. -/
theorem zipWith_getElem?_eq (f : ℝ → ℝ → ℝ) :
    ∀ (as bs : List ℝ) (i : ℕ) (a b : ℝ), as[i]? = some a → bs[i]? = some b →
      (List.zipWith f as bs)[i]? = some (f a b) := by
  intro as
  induction as with
  | nil => intro bs i a b h1 _; simp at h1
  | cons x xs ih =>
    intro bs i a b h1 h2
    cases bs with
    | nil => simp at h2
    | cons y ys =>
      cases i with
      | zero =>
        simp only [List.getElem?_cons_zero, Option.some.injEq] at h1 h2
        simp [h1, h2]
      | succ j =>
        simp only [List.getElem?_cons_succ] at h1 h2
        simpa using ih ys j a b h1 h2

/-- Every member of a list is bounded by the zero-seeded foldr of max. -/
theorem le_foldr_max (l : List ℝ) : ∀ x ∈ l, x ≤ l.foldr max 0 := by
  induction l with
  | nil => simp
  | cons a t ih =>
    intro x hx
    rcases List.mem_cons.mp hx with h | h
    · subst h; exact le_max_left _ _
    · exact le_trans (ih x h) (le_max_right _ _)

/-- The zero-seeded foldr of max over a nonempty list of nonnegative reals
is attained by a member. -/
theorem foldr_max_mem (l : List ℝ) (h0 : ∀ x ∈ l, 0 ≤ x) (hne : l ≠ []) :
    l.foldr max 0 ∈ l := by
  induction l with
  | nil => exact absurd rfl hne
  | cons a t ih =>
    by_cases ht : t = []
    · subst ht
      simp [max_eq_left (h0 a (List.mem_cons_self a _))]
    · rcases le_or_lt (t.foldr max 0) a with hc | hc
      · have : (a :: t).foldr max 0 = a := by
          simp [max_eq_left hc]
        rw [this]; exact List.mem_cons_self a t
      · have : (a :: t).foldr max 0 = t.foldr max 0 := by
          simp [max_eq_right (le_of_lt hc)]
        rw [this]
        exact List.mem_cons_of_mem _
          (ih (fun x hx => h0 x (List.mem_cons_of_mem _ hx)) ht)

/-- The zero-seeded foldr of max over a list of zeros is zero. -/
theorem foldr_max_all_zero (l : List ℝ) (h : ∀ x ∈ l, x = 0) :
    l.foldr max 0 = 0 := by
  induction l with
  | nil => rfl
  | cons a t ih =>
    have ha : a = 0 := h a (List.mem_cons_self a _)
    have ht : t.foldr max 0 = 0 := ih (fun x hx => h x (List.mem_cons_of_mem _ hx))
    simp [ha, ht]

/-! ### Claim theorems -/

/-- Claim C4: for every input image and every schedule containing exactly
one scale value, the multi-scale aggregator output equals the single-scale
pipeline (TensorField, Decompose, Measure) run directly at that scale, for
every choice of collaborator stages and every combine filter, so the
maximum-absolute-value combine stage is never applied for a one-entry
schedule. -/
theorem C4_single_scale_refinement {α β γ : Type}
    (hessianFilter : ℝ → α → β) (eigenAnalysisFilter : β → γ)
    (measure : γ → List ℝ) (combine : List ℝ → List ℝ → List ℝ)
    (sigma : ℝ) (input : α) :
    multiScaleGenerateData hessianFilter eigenAnalysisFilter (some measure)
        combine [sigma] input =
      Except.ok (generateResponseAtScale hessianFilter eigenAnalysisFilter
        measure sigma input) := rfl

/-- Claim C6: whenever the measure functor is not configured or the scale
schedule has fewer than one entry, the multi-scale aggregator fails with a
ConfigurationError and produces no output. -/
theorem C6_configuration_error {α β γ : Type}
    (hessianFilter : ℝ → α → β) (eigenAnalysisFilter : β → γ)
    (eigenToScalarImageFilter : Option (γ → List ℝ))
    (combine : List ℝ → List ℝ → List ℝ)
    (sigmaArray : List ℝ) (input : α)
    (h : eigenToScalarImageFilter = none ∨ sigmaArray = []) :
    multiScaleGenerateData hessianFilter eigenAnalysisFilter
        eigenToScalarImageFilter combine sigmaArray input =
      Except.error Err.configurationError := by
  rcases h with h | h
  · subst h; rfl
  · subst h; cases eigenToScalarImageFilter <;> rfl

/-- Witness for C6 at a concrete configuration with no measure functor. -/
theorem C6_configuration_error_witness :
    ((none : Option (ℕ → List ℝ)) = none ∨ ([(1 : ℝ)] : List ℝ) = []) ∧
      multiScaleGenerateData (fun _ n => n) (fun n : ℕ => n)
          (none : Option (ℕ → List ℝ)) (fun r _ => r) [(1 : ℝ)] (0 : ℕ) =
        Except.error Err.configurationError :=
  ⟨Or.inl rfl,
    C6_configuration_error (fun _ n => n) (fun n : ℕ => n)
      (none : Option (ℕ → List ℝ)) (fun r _ => r) [(1 : ℝ)] (0 : ℕ)
      (Or.inl rfl)⟩

/-- Claim C10: on a freshly constructed Descoteaux parameter estimator,
before the first update, GetAlpha, GetBeta and GetC all return 0.5. -/
theorem C10_constructor_defaults :
    getAlpha descoteauxConstructor = 0.5 ∧
      getBeta descoteauxConstructor = 0.5 ∧
      getC descoteauxConstructor = 0.5 :=
  ⟨rfl, rfl, rfl⟩

/-- Claim C7: the TensorField stage fails with InvalidParameter for every
non-positive scale, and for a positive scale it succeeds, producing the new
field while leaving the source grid unchanged. -/
theorem C7_tensor_field_scale_check {α β : Type}
    (computeTensorField : ℝ → α → β) (sigma : ℝ) (grid : α) :
    (sigma ≤ 0 →
      tensorFieldComputer computeTensorField sigma grid =
        Except.error Err.invalidParameter) ∧
    (0 < sigma →
      tensorFieldComputer computeTensorField sigma grid =
        Except.ok (computeTensorField sigma grid, grid)) := by
  constructor
  · intro h
    simp [tensorFieldComputer, not_lt.mpr h]
  · intro h
    simp [tensorFieldComputer, h]

/-- Witness for C7 at sigma values of both signs. -/
theorem C7_tensor_field_scale_check_witness :
    ((-1 : ℝ) ≤ 0 ∧
      tensorFieldComputer (fun (_ : ℝ) (n : ℕ) => n + 1) (-1) (5 : ℕ) =
        Except.error Err.invalidParameter) ∧
    ((0 : ℝ) < 2 ∧
      tensorFieldComputer (fun (_ : ℝ) (n : ℕ) => n + 1) 2 (5 : ℕ) =
        Except.ok (6, 5)) :=
  ⟨⟨by norm_num,
    (C7_tensor_field_scale_check (fun (_ : ℝ) (n : ℕ) => n + 1) (-1) 5).1
      (by norm_num)⟩,
   ⟨by norm_num,
    (C7_tensor_field_scale_check (fun (_ : ℝ) (n : ℕ) => n + 1) 2 5).2
      (by norm_num)⟩⟩

/-- Claim C2: combining a running image with a candidate yields at every
voxel whichever value has the larger absolute value, and on a tie the
running value (input 1) is kept. -/
theorem C2_maximum_absolute_value_rule (input1 input2 : List ℝ) (i : ℕ)
    (a b : ℝ) (h1 : input1[i]? = some a) (h2 : input2[i]? = some b) :
    (maximumAbsoluteValueImageFilter input1 input2)[i]? =
        some (if |a| ≥ |b| then a else b) ∧
      (|a| = |b| →
        (maximumAbsoluteValueImageFilter input1 input2)[i]? = some a) := by
  have key := zipWith_getElem?_eq maximumAbsoluteValue input1 input2 i a b h1 h2
  constructor
  · exact key
  · intro hab
    have hval : maximumAbsoluteValue a b = a := by
      simp [maximumAbsoluteValue, hab]
    show (List.zipWith maximumAbsoluteValue input1 input2)[i]? = some a
    rw [key, hval]

/-- Witness for C2 on mixed-sign equal-magnitude values: the tie keeps the
running value. -/
theorem C2_maximum_absolute_value_rule_witness :
    ([(2 : ℝ), -3])[0]? = some (2 : ℝ) ∧
      ([(-2 : ℝ), 1])[0]? = some ((-2 : ℝ)) ∧
      (maximumAbsoluteValueImageFilter [2, -3] [-2, 1])[0]? =
        some (if |(2 : ℝ)| ≥ |(-2 : ℝ)| then (2 : ℝ) else (-2 : ℝ)) ∧
      (|(2 : ℝ)| = |(-2 : ℝ)| →
        (maximumAbsoluteValueImageFilter [2, -3] [-2, 1])[0]? =
          some (2 : ℝ)) := by
  have h1 : ([(2 : ℝ), -3])[0]? = some (2 : ℝ) := by simp
  have h2 : ([(-2 : ℝ), 1])[0]? = some ((-2 : ℝ)) := by simp
  refine ⟨h1, h2, ?_, ?_⟩
  · exact (C2_maximum_absolute_value_rule [2, -3] [-2, 1] 0 2 (-2) h1 h2).1
  · exact (C2_maximum_absolute_value_rule [2, -3] [-2, 1] 0 2 (-2) h1 h2).2

/-- Claim C3: at every voxel of the measure stage output, if a mask is
present and the physical point of the voxel is outside the mask, the output
is exactly zero independently of the formula (so the formula is not
evaluated there); with no mask, or inside the mask, the output is the
formula applied to the eigenvalue pixel. Holds for every formula variant,
which is a universally quantified parameter here. -/
theorem C3_mask_forces_zero {I P E : Type} (processPixel : E → ℝ)
    (mask : Option (P → Bool)) (transformIndexToPhysicalPoint : I → P)
    (voxels : List (I × E)) (i : ℕ) (v : I × E)
    (hv : voxels[i]? = some v) :
    (mask = none →
      (eigenToMeasureGenerateData processPixel mask
          transformIndexToPhysicalPoint voxels)[i]? =
        some (processPixel v.2)) ∧
    (∀ isInside, mask = some isInside →
      isInside (transformIndexToPhysicalPoint v.1) = true →
      (eigenToMeasureGenerateData processPixel mask
          transformIndexToPhysicalPoint voxels)[i]? =
        some (processPixel v.2)) ∧
    (∀ isInside, mask = some isInside →
      isInside (transformIndexToPhysicalPoint v.1) = false →
      ((eigenToMeasureGenerateData processPixel mask
          transformIndexToPhysicalPoint voxels)[i]? = some 0 ∧
        ∀ otherFormula : E → ℝ,
          (eigenToMeasureGenerateData otherFormula mask
              transformIndexToPhysicalPoint voxels)[i]? = some 0)) := by
  refine ⟨?_, ?_, ?_⟩
  · intro hm
    subst hm
    simp [eigenToMeasureGenerateData, List.getElem?_map, hv]
  · intro isInside hm hin
    subst hm
    simp [eigenToMeasureGenerateData, List.getElem?_map, hv, hin]
  · intro isInside hm hout
    subst hm
    constructor
    · simp [eigenToMeasureGenerateData, List.getElem?_map, hv, hout]
    · intro otherFormula
      simp [eigenToMeasureGenerateData, List.getElem?_map, hv, hout]

/-- Witness for C3 on a two-voxel image with a mask excluding voxel 1: the
excluded voxel is zero for two different formulas, the included voxel gets
the formula value. Indices are naturals, physical points are the indices
themselves, pixels are reals, and the formula adds one. -/
theorem C3_mask_forces_zero_witness :
    ([((0 : ℕ), (5 : ℝ)), (1, 7)])[1]? = some ((1 : ℕ), (7 : ℝ)) ∧
      (eigenToMeasureGenerateData (fun e => e + 1)
          (some (fun p : ℕ => decide (p = 0))) (fun i : ℕ => i)
          [((0 : ℕ), (5 : ℝ)), (1, 7)])[1]? = some 0 ∧
      (eigenToMeasureGenerateData (fun e => e * 10)
          (some (fun p : ℕ => decide (p = 0))) (fun i : ℕ => i)
          [((0 : ℕ), (5 : ℝ)), (1, 7)])[1]? = some 0 := by
  have hv : ([((0 : ℕ), (5 : ℝ)), (1, 7)])[1]? = some ((1 : ℕ), (7 : ℝ)) := by
    simp
  have h := ((C3_mask_forces_zero (fun e => e + 1)
    (some (fun p : ℕ => decide (p = 0))) (fun i : ℕ => i)
    [((0 : ℕ), (5 : ℝ)), (1, 7)] 1 ((1 : ℕ), (7 : ℝ)) hv).2.2
    (fun p : ℕ => decide (p = 0)) rfl (by decide))
  exact ⟨hv, h.1, h.2 (fun e => e * 10)⟩

/-- Claim C1: every run of the Descoteaux parameter estimator yields
alpha = 0.5 and beta = 0.5 regardless of the data, and c equal to the
Frobenius norm weight times the maximum Frobenius norm over the foreground
voxels (all voxels with no mask, else exactly the voxels whose mask value
differs from the background value): the accumulated value bounds every
foreground norm and is attained by a foreground voxel whenever the
foreground is nonempty. -/
theorem C1_descoteaux_estimation {M : Type} [DecidableEq M]
    (ev : List (ℝ × ℝ × ℝ)) (mask : Option (List M)) (backgroundValue : M)
    (frobeniusNormWeight : ℝ) :
    descoteauxParameterEstimation ev mask backgroundValue
        frobeniusNormWeight =
      (0.5, 0.5, frobeniusNormWeight *
        ((foregroundPixels ev mask backgroundValue).map
          calculateFrobeniusNorm).foldr max 0) ∧
    (∀ p ∈ foregroundPixels ev mask backgroundValue,
      calculateFrobeniusNorm p ≤
        ((foregroundPixels ev mask backgroundValue).map
          calculateFrobeniusNorm).foldr max 0) ∧
    (foregroundPixels ev mask backgroundValue ≠ [] →
      ∃ p ∈ foregroundPixels ev mask backgroundValue,
        calculateFrobeniusNorm p =
          ((foregroundPixels ev mask backgroundValue).map
            calculateFrobeniusNorm).foldr max 0) := by
  refine ⟨rfl, ?_, ?_⟩
  · intro p hp
    exact le_foldr_max _ _ (List.mem_map_of_mem _ hp)
  · intro hne
    have hmem := foldr_max_mem
      ((foregroundPixels ev mask backgroundValue).map calculateFrobeniusNorm)
      (fun x hx => by
        rcases List.mem_map.mp hx with ⟨p, _, rfl⟩
        exact Real.sqrt_nonneg _)
      (fun hmap => hne (List.map_eq_nil_iff.mp hmap))
    rcases List.mem_map.mp hmem with ⟨p, hp, hpe⟩
    exact ⟨p, hp, hpe⟩

/-- Witness for C1: a one-voxel eigenvalue field of (-1, -1, -1) with no
mask and weight one half gives c equal to half the square root of three. -/
theorem C1_descoteaux_estimation_witness :
    descoteauxParameterEstimation [((-1 : ℝ), -1, -1)]
        (none : Option (List ℕ)) 0 (1 / 2) =
      (0.5, 0.5, 1 / 2 * Real.sqrt 3) := by
  have h := (C1_descoteaux_estimation [((-1 : ℝ), -1, -1)]
    (none : Option (List ℕ)) 0 (1 / 2)).1
  rw [h]
  have h3 : calculateFrobeniusNorm ((-1 : ℝ), -1, -1) = Real.sqrt 3 := by
    rw [calculateFrobeniusNorm]
    norm_num
  have hfold : ((foregroundPixels [((-1 : ℝ), -1, -1)]
      (none : Option (List ℕ)) 0).map calculateFrobeniusNorm).foldr max 0 =
      Real.sqrt 3 := by
    show ([((-1 : ℝ), -1, -1)].map calculateFrobeniusNorm).foldr max 0 =
      Real.sqrt 3
    simp [h3, max_eq_left (Real.sqrt_nonneg 3)]
  rw [hfold]

/-- Claim C9: when the foreground voxel set is empty, or every foreground
norm is zero, the estimated c is zero (the weight times zero) and the run
completes, returning the fixed alpha and beta. -/
theorem C9_degenerate_estimation {M : Type} [DecidableEq M]
    (ev : List (ℝ × ℝ × ℝ)) (mask : Option (List M)) (backgroundValue : M)
    (frobeniusNormWeight : ℝ)
    (h : foregroundPixels ev mask backgroundValue = [] ∨
      ∀ p ∈ foregroundPixels ev mask backgroundValue,
        calculateFrobeniusNorm p = 0) :
    descoteauxParameterEstimation ev mask backgroundValue
        frobeniusNormWeight =
      (0.5, 0.5, frobeniusNormWeight * 0) := by
  have hz : ((foregroundPixels ev mask backgroundValue).map
      calculateFrobeniusNorm).foldr max 0 = 0 := by
    rcases h with h | h
    · rw [h]; rfl
    · apply foldr_max_all_zero
      intro x hx
      rcases List.mem_map.mp hx with ⟨p, hp, rfl⟩
      exact h p hp
  simp only [descoteauxParameterEstimation, hz]

/-- Witness for C9: an empty eigenvalue field with no mask gives c zero. -/
theorem C9_degenerate_estimation_witness :
    foregroundPixels ([] : List (ℝ × ℝ × ℝ)) (none : Option (List ℕ)) 0 =
        [] ∧
      descoteauxParameterEstimation ([] : List (ℝ × ℝ × ℝ))
          (none : Option (List ℕ)) 0 3 =
        (0.5, 0.5, 3 * 0) :=
  ⟨rfl, C9_degenerate_estimation ([] : List (ℝ × ℝ × ℝ))
    (none : Option (List ℕ)) 0 3 (Or.inl rfl)⟩

/-- Adjacent monotonicity of the sigma schedule formula: the step size is at
least 1e-10, so consecutive schedule entries never decrease, for both step
methods, as long as the smaller bound is positive. -/
theorem sigmaAtScaleLevel_le_succ (mn mx : ℝ) (s : ℕ)
    (method : SigmaStepMethod) (hmn : 0 < mn) (i : ℕ) :
    sigmaAtScaleLevel mn mx s method i ≤
      sigmaAtScaleLevel mn mx s method (i + 1) := by
  have hse : (0 : ℝ) <
      max (1e-10) ((mx - mn) / ((s - 1 : ℕ) : ℝ)) :=
    lt_of_lt_of_le (by norm_num) (le_max_left _ _)
  have hsl : (0 : ℝ) <
      max (1e-10) ((Real.log mx - Real.log mn) / ((s - 1 : ℕ) : ℝ)) :=
    lt_of_lt_of_le (by norm_num) (le_max_left _ _)
  cases i with
  | zero =>
    cases method with
    | EquispacedSigmaSteps =>
      simp only [sigmaAtScaleLevel, Nat.zero_add, Nat.cast_one]
      rw [if_pos trivial, if_neg one_ne_zero]
      nlinarith [hse]
    | LogarithmicSigmaSteps =>
      simp only [sigmaAtScaleLevel, Nat.zero_add, Nat.cast_one]
      rw [if_pos trivial, if_neg one_ne_zero]
      calc mn = Real.exp (Real.log mn) := (Real.exp_log hmn).symm
        _ ≤ _ := Real.exp_le_exp.mpr (by nlinarith [hsl])
  | succ j =>
    have hj1 : j + 1 ≠ 0 := Nat.succ_ne_zero j
    have hj2 : j + 1 + 1 ≠ 0 := Nat.succ_ne_zero (j + 1)
    have hcast : ((j + 1 : ℕ) : ℝ) ≤ ((j + 1 + 1 : ℕ) : ℝ) := by
      push_cast
      linarith
    cases method with
    | EquispacedSigmaSteps =>
      simp only [sigmaAtScaleLevel, if_neg hj1, if_neg hj2]
      have := mul_le_mul_of_nonneg_left hcast (le_of_lt hse)
      linarith
    | LogarithmicSigmaSteps =>
      simp only [sigmaAtScaleLevel, if_neg hj1, if_neg hj2]
      apply Real.exp_le_exp.mpr
      have := mul_le_mul_of_nonneg_left hcast (le_of_lt hsl)
      linarith

/-- The generated sigma list is sorted in non-decreasing adjacent order. -/
theorem sigmaList_chain (mn mx : ℝ) (s : ℕ) (method : SigmaStepMethod)
    (hmn : 0 < mn) :
    List.Chain' (fun x y => x ≤ y)
      ((List.range s).map (sigmaAtScaleLevel mn mx s method)) := by
  rw [List.chain'_map]
  cases s with
  | zero => simp
  | succ m =>
    rw [List.chain'_range_succ]
    intro i _
    exact sigmaAtScaleLevel_le_succ mn mx (m + 1) method hmn i

/-- The generated sigma list starts with the smaller bound exactly. -/
theorem sigmaList_head (mn mx : ℝ) (s : ℕ) (method : SigmaStepMethod)
    (hs : 1 ≤ s) :
    ((List.range s).map (sigmaAtScaleLevel mn mx s method)).head? =
      some mn := by
  cases s with
  | zero => omega
  | succ m =>
    rw [List.range_succ_eq_map]
    simp [sigmaAtScaleLevel]

/-- Claim C5: for every valid call of GenerateSigmaArray (at least one step
requested, positive bounds) and both step methods, the schedule starts with
the minimum of the two bounds at index 0 and is non-decreasing
throughout. -/
theorem C5_sigma_array_sorted (a b : ℝ) (n : ℕ) (method : SigmaStepMethod)
    (hn : 1 ≤ n) (ha : 0 < a) (hb : 0 < b) :
    ∃ l, generateSigmaArray a b n method = Except.ok l ∧
      l.head? = some (min a b) ∧ List.Chain' (fun x y => x ≤ y) l := by
  by_cases hab : a > b
  · have hne : b ≠ a := ne_of_lt hab
    have key : generateSigmaArray a b n method =
        Except.ok ((List.range n).map (sigmaAtScaleLevel b a n method)) := by
      simp only [generateSigmaArray]
      rw [if_neg (by omega : ¬ n < 1)]
      simp only [if_pos hab, if_neg hne]
    refine ⟨_, key, ?_, ?_⟩
    · rw [sigmaList_head b a n method hn, min_eq_right (le_of_lt hab)]
    · exact sigmaList_chain b a n method hb
  · by_cases heq : a = b
    · have key : generateSigmaArray a b n method =
          Except.ok ((List.range 1).map
            (sigmaAtScaleLevel a b 1 method)) := by
        simp only [generateSigmaArray]
        rw [if_neg (by omega : ¬ n < 1)]
        simp only [if_neg hab, if_pos heq]
      refine ⟨_, key, ?_, ?_⟩
      · rw [sigmaList_head a b 1 method (le_refl 1),
          min_eq_left (le_of_eq heq)]
      · exact sigmaList_chain a b 1 method ha
    · have key : generateSigmaArray a b n method =
          Except.ok ((List.range n).map
            (sigmaAtScaleLevel a b n method)) := by
        simp only [generateSigmaArray]
        rw [if_neg (by omega : ¬ n < 1)]
        simp only [if_neg hab, if_neg heq]
      refine ⟨_, key, ?_, ?_⟩
      · rw [sigmaList_head a b n method hn,
          min_eq_left (not_lt.mp hab)]
      · exact sigmaList_chain a b n method ha

/-- Witness for C5 at a concrete equispaced call. -/
theorem C5_sigma_array_sorted_witness :
    (1 : ℕ) ≤ 3 ∧ (0 : ℝ) < 1 ∧ (0 : ℝ) < 2 ∧
      ∃ l, generateSigmaArray 1 2 3 SigmaStepMethod.EquispacedSigmaSteps =
          Except.ok l ∧
        l.head? = some (min (1 : ℝ) 2) ∧
        List.Chain' (fun x y => x ≤ y) l :=
  ⟨by norm_num, by norm_num, by norm_num,
    C5_sigma_array_sorted 1 2 3 SigmaStepMethod.EquispacedSigmaSteps
      (by norm_num) (by norm_num) (by norm_num)⟩

/-- Counterexample to claim C8 as stated: with equal bounds but a requested
step count of zero, GenerateSigmaArray throws InvalidParameter (the count
check precedes the coercion to one), so no one-element schedule is
returned. -/
theorem C8_count_zero_counterexample :
    generateSigmaArray 2 2 0 SigmaStepMethod.EquispacedSigmaSteps =
      Except.error Err.invalidParameter := by
  simp [generateSigmaArray]

/-- Claim C8 (amended): for every call of GenerateSigmaArray with equal
bounds and a requested step count of at least one, the returned schedule is
exactly the one-element list holding that common value, the requested count
being coerced to one. -/
theorem C8_min_eq_max_single (a : ℝ) (n : ℕ) (method : SigmaStepMethod)
    (hn : 1 ≤ n) :
    generateSigmaArray a a n method = Except.ok [a] := by
  simp only [generateSigmaArray]
  rw [if_neg (by omega : ¬ n < 1)]
  simp [sigmaAtScaleLevel, List.range_succ]

/-- Witness for the amended C8 at a concrete call with count three. -/
theorem C8_min_eq_max_single_witness :
    (1 : ℕ) ≤ 3 ∧
      generateSigmaArray 2 2 3 SigmaStepMethod.LogarithmicSigmaSteps =
        Except.ok [(2 : ℝ)] :=
  ⟨by norm_num,
    C8_min_eq_max_single 2 3 SigmaStepMethod.LogarithmicSigmaSteps
      (by norm_num)⟩
